import Mathlib

/-!
Shallow embedding of `src/manga_py_update.py` (comic-library updater).

The program maintains one folder per comic title; for each title it resolves
a source URL (from `info.json`, else by inspecting the newest `*.cbz`
archive's embedded `info.txt`), invokes the external `manga_py` fetcher, and
diffs the folder contents before/after to report newly downloaded volumes.

Python-level conventions of the embedding:
* machine state that a Python method mutates (`self.url`, `self.url_from_cbz`,
  `self.downloaded_volumes`, the on-disk `info.json`) is passed explicitly;
* a Python exception that the source does *not* catch is `Except.error ()`;
* Python truthiness of `self.url` (`None` and `""` are falsy) is `truthy`;
* filesystem facts (directory listings, mtimes, archive bytes) are inputs.
-/

namespace MangaPyUpdate

/-- Raised-or-returned results are compared in concrete evaluations. -/
instance {α : Type} [DecidableEq α] : DecidableEq (Except Unit α) := fun a b =>
  match a, b with
  | Except.ok x, Except.ok y =>
    if h : x = y then Decidable.isTrue (h ▸ rfl)
    else Decidable.isFalse fun hh => h (Except.ok.inj hh)
  | Except.error x, Except.error y => Decidable.isTrue (by cases x; cases y; rfl)
  | Except.ok _, Except.error _ => Decidable.isFalse fun hh => Except.noConfusion hh
  | Except.error _, Except.ok _ => Decidable.isFalse fun hh => Except.noConfusion hh

/-- One archive file (`*.cbz`) in a title folder: its filename and its
modification timestamp (`st_mtime`, modelled as a natural number). -/
structure Vol where
  name : String
  mtime : Nat
deriving DecidableEq, Repr

/-- Observable content of a title's `info.json` file, when the file exists.
`malformed` is a file that `json.load` rejects (`JSONDecodeError`);
`missingKey` parses to an object with no `url` key (`KeyError`);
`withUrl u` is `{"url": u}`.  (A file parsing to a non-object JSON value
would raise an uncaught `TypeError` when indexed in the source; none of the
claims concern it and it is not modelled.  A non-string `url` value is
likewise not modelled.) -/
inductive ConfigFile where
  | malformed
  | missingKey
  | withUrl (u : String)
deriving DecidableEq, Repr

/-- Observable content of one `*.cbz` archive, as seen by
`Comic._get_url_from_cbz`.
`badZip`: `zipfile.ZipFile` (or reading/decoding the entry) raises an
exception other than `KeyError` — e.g. `BadZipFile` for a corrupt container;
`noInfo`: the container opens but has no `info.txt` entry (`KeyError`);
`info t`: the container opens and its `info.txt` decodes to the text `t`. -/
inductive ArchiveContent where
  | badZip
  | noInfo
  | info (text : String)
deriving DecidableEq, Repr

/-- What the title path is on disk when `Comic._get_actual_comic_volumes`
runs.  `pathlib.Path.is_dir` follows symbolic links, so a symlink that
resolves to a directory takes the same branch as a real directory; the
`is_symlink` branch is reached only by a symlink that does **not** resolve
to a directory.  A missing path is created with `mkdir`. -/
inductive FolderKind where
  | dir (volumes : List Vol)
  | symlinkToDir (volumes : List Vol)
  | symlinkOther
  | missing
deriving DecidableEq, Repr

/-- Substring test, Python's `needle in hay` on strings. -/
def containsSub (needle : List Char) : List Char → Bool
  | [] => needle.isEmpty
  | c :: cs => needle.isPrefixOf (c :: cs) || containsSub needle cs

/-- The literal searched for by `re.search(r"Site: (.*)", ...)`. -/
def siteMarker : List Char := ['S', 'i', 't', 'e', ':', ' ']

/-- Python's `.` in a regex: everything up to (not including) a newline. -/
def takeLine : List Char → List Char
  | [] => []
  | c :: cs => if c = '\n' then [] else c :: takeLine cs

/-- Scan for the first position where `Site: ` occurs; capture the rest of
that line (no trimming — the source uses the captured group verbatim). -/
def findSiteAux : List Char → Option (List Char)
  | [] => none
  | c :: cs =>
    if siteMarker.isPrefixOf (c :: cs) then
      some (takeLine ((c :: cs).drop siteMarker.length))
    else findSiteAux cs

/-- `re.search(r"Site: (.*)", text, re.MULTILINE)`: the pattern has no
anchors, so `MULTILINE` is inert and the first occurrence anywhere wins. -/
def findSite (s : String) : Option String :=
  (findSiteAux s.data).map fun l => ⟨l⟩

/-- `get_last_file`: `sorted(paths, key=mtime)[-1]` on a non-empty list —
the element with the greatest mtime, latest-in-iteration-order winning ties
(Python's sort is stable); `none` models the `""` returned for an empty
list. -/
def get_last_file (paths : List Vol) : Option Vol :=
  paths.foldl
    (fun acc v =>
      match acc with
      | none => some v
      | some m => if m.mtime ≤ v.mtime then some v else some m)
    none

/-- `Comic._get_url_from_config`: the value `self.url` holds after the call,
given the config-file state.  A missing file, a `JSONDecodeError` and a
`KeyError` all leave `self.url` as `None` (the latter two after printing a
yellow diagnostic). -/
def get_url_from_config : Option ConfigFile → Option String
  | none => none
  | some ConfigFile.malformed => none
  | some ConfigFile.missingKey => none
  | some (ConfigFile.withUrl u) => some u

/-- Python truthiness of `self.url`: `None` and `""` are falsy. -/
def truthy : Option String → Bool
  | none => false
  | some s => if s = "" then false else true

/-- Result of `Comic._get_url_from_cbz` when it returns normally:
the matched URL (if any) and whether the red "Excepcion reading zip file"
diagnostic was printed (it is printed only on `KeyError`; a pattern
mismatch is silent). -/
structure CbzOut where
  url : Option String
  diag : Bool
deriving DecidableEq, Repr

/-- `Comic._get_url_from_cbz` on one archive.  Only `KeyError` is caught:
a container that cannot be opened (`badZip`) raises to the caller. -/
def get_url_from_cbz : ArchiveContent → Except Unit CbzOut
  | ArchiveContent.badZip => Except.error ()
  | ArchiveContent.noInfo => Except.ok ⟨none, true⟩
  | ArchiveContent.info t => Except.ok ⟨findSite t, false⟩

/-- State left by `Comic._get_url`: the resolved `self.url`, the
`self.url_from_cbz` flag, the config-file state after (changed only by the
`json.dump` persistence branch), and how many archive containers were
opened. -/
structure ResolveOut where
  url : Option String
  url_from_cbz : Bool
  config : Option ConfigFile
  archiveReads : Nat
deriving DecidableEq, Repr

/-- The inference branch of `Comic._get_url` (reached when the config gave
no truthy URL and `initial_volumes` is non-empty): open the last-modified
archive, search for `Site: `; on a match assign `self.url` and, if the new
`self.url` is truthy, persist `{"url": self.url}` via `json.dump` with
`sort_keys=True, indent=4` (a canonical record — modelled at the record
level as `ConfigFile.withUrl`).  `u0` is `self.url` on entry. -/
def cbzStep (u0 : Option String) (config : Option ConfigFile) (volumes : List Vol)
    (archive : String → ArchiveContent) : Except Unit ResolveOut :=
  match get_last_file volumes with
  | none => Except.error ()
  | some lf =>
    match get_url_from_cbz (archive lf.name) with
    | Except.error _ => Except.error ()
    | Except.ok out =>
      match out.url with
      | none => Except.ok ⟨u0, false, config, 1⟩
      | some u =>
        if u = "" then Except.ok ⟨some u, true, config, 1⟩
        else Except.ok ⟨some u, true, some (ConfigFile.withUrl u), 1⟩

/-- `Comic._get_url`: try the config; if `self.url` is still falsy and
`initial_volumes` is non-empty, infer from the newest archive and persist
on success. -/
def get_url (config : Option ConfigFile) (volumes : List Vol)
    (archive : String → ArchiveContent) : Except Unit ResolveOut :=
  if truthy (get_url_from_config config) = false ∧ volumes ≠ [] then
    cbzStep (get_url_from_config config) config volumes archive
  else Except.ok ⟨get_url_from_config config, false, config, 0⟩

/-- `Comic._get_actual_comic_volumes`: the set of `*.cbz` files directly in
the folder (non-recursive), as the list the filesystem happens to yield.
A symlink that does not resolve to a directory yields `[]` after a red
diagnostic; a missing path is created (`mkdir`) and yields `[]`. -/
def get_actual_comic_volumes : FolderKind → List Vol
  | FolderKind.dir vs => vs
  | FolderKind.symlinkToDir vs => vs
  | FolderKind.symlinkOther => []
  | FolderKind.missing => []

/-- Whether the red `Symlink:` diagnostic is printed by
`Comic._get_actual_comic_volumes` (only the non-directory-symlink branch). -/
def symlinkDiag : FolderKind → Bool
  | FolderKind.symlinkOther => true
  | _ => false

/-- One child of a base directory, with everything the environment
determines about it: its folder name, its own mtime (the Library's sort
key), what is at the path, the `info.json` state, and each archive's
content keyed by filename. -/
structure Child where
  name : String
  mtime : Nat
  kind : FolderKind
  config : Option ConfigFile
  archive : String → ArchiveContent

/-- A `Comic` object right after `Comic.__init__`. -/
structure Comic where
  name : String
  initial_volumes : List Vol
  last_file : Option Vol
  url : Option String
  url_from_cbz : Bool
  config : Option ConfigFile
  downloaded_volumes : Finset Vol
deriving DecidableEq

/-- `Comic.__init__`: scan the folder, remember the last-modified archive,
resolve the URL (which may raise, see `get_url`), start with an empty
`downloaded_volumes`. -/
def mk_comic (ch : Child) : Except Unit Comic :=
  let vols := get_actual_comic_volumes ch.kind
  match get_url ch.config vols ch.archive with
  | Except.error _ => Except.error ()
  | Except.ok r =>
    Except.ok
      { name := ch.name
        initial_volumes := vols
        last_file := get_last_file vols
        url := r.url
        url_from_cbz := r.url_from_cbz
        config := r.config
        downloaded_volumes := ∅ }

/-- `sorted(list(base_dir.glob("*")), key=lambda x: x.stat().st_mtime,
reverse=True)`: a *stable* sort, most-recent mtime first; children with
equal mtimes keep the order in which the filesystem enumerated them. -/
def sortDesc (children : List Child) : List Child :=
  List.insertionSort (fun a b => b.mtime ≤ a.mtime) children

/-- Lexicographic `≤` on char lists (ordinary name ordering). -/
def charListLE : List Char → List Char → Bool
  | [], _ => true
  | _ :: _, [] => false
  | a :: as, b :: bs => if a = b then charListLE as bs else decide (a.toNat < b.toNat)

/-- Modelled from the spec: the comparator the specification prescribes for
discovery — modification timestamp descending, ties by folder name
ascending.  (Used only to compare the specified ordering with the code's
`sortDesc`.) -/
def specLE (a b : Child) : Bool :=
  decide (b.mtime < a.mtime) || (a.mtime == b.mtime && charListLE a.name.data b.name.data)

/-- Modelled from the spec: insertion step for `specSort`. -/
def specInsert (x : Child) : List Child → List Child
  | [] => [x]
  | y :: ys => if specLE x y then x :: y :: ys else y :: specInsert x ys

/-- Modelled from the spec: the discovery ordering the specification
describes (mtime descending, ties by name ascending). -/
def specSort : List Child → List Child
  | [] => []
  | x :: xs => specInsert x (specSort xs)

/-- `Library.__init__` for one base directory: order the children by mtime
(most recent first) and construct a `Comic` for every one of them —
including symlinks; construction may raise (`get_url` on a bad zip). -/
def library_init (children : List Child) : Except Unit (List Comic) :=
  (sortDesc children).mapM mk_comic

/-- Observable outcome of a `Comic._download_comic` call that returned:
whether `sh.manga_py` was invoked, whether the red "Excepcion downloading
comic" diagnostic was printed (every exception from the invocation is
caught there), and whether the mangadex language line was fed to stdin. -/
structure DlOut where
  invoked : Bool
  faultReported : Bool
  langInput : Bool
deriving DecidableEq, Repr

/-- `'mangadex'` as searched for in the resolved URL. -/
def mangadexChars : List Char := ['m', 'a', 'n', 'g', 'a', 'd', 'e', 'x']

/-- `Comic._download_comic`.  With `url = None` the method echoes
"No url available" but then evaluates `'mangadex' in self.url`, raising an
uncaught `TypeError` *before* the `try` block — so the fetcher is never
invoked and the exception propagates.  With any string URL the fetcher is
invoked and every exception it raises is caught and reported
(`fetchRaises` records whether it raised). -/
def download_comic (url : Option String) (fetchRaises : Bool) : Except Unit DlOut :=
  match url with
  | none => Except.error ()
  | some u => Except.ok ⟨true, fetchRaises, containsSub mangadexChars u.data⟩

/-- Per-title environment for one `update` run: whether the external
fetcher raises, and what is at the title path when the post-fetch rescan
(`_get_actual_comic_volumes`) runs. -/
structure RunEnv where
  fetchRaises : Bool
  postKind : FolderKind
deriving DecidableEq

/-- `Comic.update`: with no initial volumes, print "No *.cbz here!!!" and
return (no fetch, `downloaded_volumes` untouched); otherwise download, then
set `downloaded_volumes` to a *fresh* rescan minus `initial_volumes`. -/
def comic_update (c : Comic) (e : RunEnv) : Except Unit (Comic × DlOut) :=
  if c.initial_volumes = [] then Except.ok (c, ⟨false, false, false⟩)
  else
    match download_comic c.url e.fetchRaises with
    | Except.error _ => Except.error ()
    | Except.ok dl =>
      Except.ok
        ({ c with
            downloaded_volumes :=
              (get_actual_comic_volumes e.postKind).toFinset \
                c.initial_volumes.toFinset },
          dl)

/-- `Library.update._needs_skip`: `any(word in url for word in SKIPPED)`.
The generator is lazy, so with an empty skip list it is `False` without
ever touching `url`; with a non-empty skip list and `url = None`, the first
membership test raises `TypeError`. -/
def needs_skip (url : Option String) (skipped : List String) : Except Unit Bool :=
  match skipped with
  | [] => Except.ok false
  | _ :: _ =>
    match url with
    | none => Except.error ()
    | some u => Except.ok (skipped.any fun w => containsSub w.data u.data)

/-- The module-level `SKIPPED` constant: empty in the source
(`['kissmanga', 'mangadex']` is commented out). -/
def SKIPPED : List String := []

/-- One iteration of the `Library.update` loop body for one comic:
skip-check (which may raise), `continue` on a skip (contributing nothing to
the aggregate), otherwise `comic.update` (which may raise) and the comic's
fresh `downloaded_volumes` as the contribution. -/
def step (skipped : List String) : Comic × RunEnv → Except Unit (Finset Vol × DlOut)
  | (c, e) =>
    match needs_skip c.url skipped with
    | Except.error _ => Except.error ()
    | Except.ok true => Except.ok (∅, ⟨false, false, false⟩)
    | Except.ok false =>
      match comic_update c e with
      | Except.error _ => Except.error ()
      | Except.ok (c', dl) => Except.ok (c'.downloaded_volumes, dl)

/-- `Library.update`: iterate the comics in order, skip or update each,
union the per-comic `downloaded_volumes` into `self.downloaded_volumes`.
Any exception escaping the loop body aborts the whole iteration.  Returns
the final aggregate set and the names of comics for which the fetcher was
actually invoked. -/
def library_update (skipped : List String) :
    List (Comic × RunEnv) → Except Unit (Finset Vol × List String)
  | [] => Except.ok (∅, [])
  | x :: rest =>
    match step skipped x with
    | Except.error _ => Except.error ()
    | Except.ok (d, dl) =>
      match library_update skipped rest with
      | Except.error _ => Except.error ()
      | Except.ok (agg, names) =>
        Except.ok (d ∪ agg, if dl.invoked then x.1.name :: names else names)

/-- The aggregate contribution of one comic when its loop iteration
completes: its fresh diff, `∅` when skipped (or on error, a value never
used under the success hypotheses). -/
def stepD (skipped : List String) (x : Comic × RunEnv) : Finset Vol :=
  match step skipped x with
  | Except.ok (d, _) => d
  | Except.error _ => ∅

/-- Union of the per-comic contributions over a list, in order. -/
def aggOf (skipped : List String) (l : List (Comic × RunEnv)) : Finset Vol :=
  l.foldr (fun x a => stepD skipped x ∪ a) ∅

/-- A comic whose loop iteration cannot raise: either its URL resolved, or
the skip list is empty and its folder had no archives (the early return). -/
def processable (skipped : List String) (x : Comic × RunEnv) : Prop :=
  x.1.url.isSome = true ∨ (skipped = [] ∧ x.1.initial_volumes = [])

instance (skipped : List String) (x : Comic × RunEnv) :
    Decidable (processable skipped x) :=
  inferInstanceAs
    (Decidable (x.1.url.isSome = true ∨ (skipped = [] ∧ x.1.initial_volumes = [])))

/-- Projection used to state results about fallible computations. -/
def okValue {α : Type} : Except Unit α → Option α
  | Except.ok a => some a
  | Except.error _ => none

/-! ### Resolution lemmas -/

lemma get_last_file_fold (l : List Vol) :
    ∀ (acc : Option Vol) (r : Vol),
      l.foldl
          (fun acc v =>
            match acc with
            | none => some v
            | some m => if m.mtime ≤ v.mtime then some v else some m)
          acc = some r →
        (r ∈ l ∨ acc = some r) ∧ (∀ v ∈ l, v.mtime ≤ r.mtime) ∧
          ∀ m, acc = some m → m.mtime ≤ r.mtime := by
  induction l with
  | nil =>
    intro acc r h
    simp only [List.foldl_nil] at h
    subst h
    exact ⟨Or.inr rfl, fun v hv => absurd hv (List.not_mem_nil v),
      fun m hm => le_of_eq (congrArg Vol.mtime (Option.some.inj hm)).symm⟩
  | cons x xs ih =>
    intro acc r h
    cases acc with
    | none =>
      simp only [List.foldl_cons] at h
      obtain ⟨h1, h2, h3⟩ := ih (some x) r h
      have hx : x.mtime ≤ r.mtime := h3 x rfl
      refine ⟨Or.inl ?_, fun v hv => ?_, fun m hm => Option.noConfusion hm⟩
      · rcases h1 with h1 | h1
        · exact List.mem_cons_of_mem x h1
        · rw [← Option.some.inj h1]; exact List.mem_cons_self x xs
      · rcases List.mem_cons.mp hv with rfl | hv
        · exact hx
        · exact h2 v hv
    | some m =>
      simp only [List.foldl_cons] at h
      by_cases hcmp : m.mtime ≤ x.mtime
      · rw [if_pos hcmp] at h
        obtain ⟨h1, h2, h3⟩ := ih (some x) r h
        have hx : x.mtime ≤ r.mtime := h3 x rfl
        refine ⟨Or.inl ?_, fun v hv => ?_, fun m' hm' => ?_⟩
        · rcases h1 with h1 | h1
          · exact List.mem_cons_of_mem x h1
          · rw [← Option.some.inj h1]; exact List.mem_cons_self x xs
        · rcases List.mem_cons.mp hv with rfl | hv
          · exact hx
          · exact h2 v hv
        · rw [← Option.some.inj hm']; exact le_trans hcmp hx
      · rw [if_neg hcmp] at h
        obtain ⟨h1, h2, h3⟩ := ih (some m) r h
        have hm : m.mtime ≤ r.mtime := h3 m rfl
        have hx : x.mtime ≤ r.mtime :=
          le_trans (le_of_lt (Nat.lt_of_not_le hcmp)) hm
        refine ⟨?_, fun v hv => ?_, fun m' hm' => ?_⟩
        · rcases h1 with h1 | h1
          · exact Or.inl (List.mem_cons_of_mem x h1)
          · exact Or.inr h1
        · rcases List.mem_cons.mp hv with rfl | hv
          · exact hx
          · exact h2 v hv
        · rw [← Option.some.inj hm']; exact hm

/-- The file `get_last_file` picks really is a most-recently-modified one:
it belongs to the list and its mtime dominates every element's. -/
lemma get_last_file_max (vols : List Vol) (lf : Vol)
    (h : get_last_file vols = some lf) :
    lf ∈ vols ∧ ∀ v ∈ vols, v.mtime ≤ lf.mtime := by
  obtain ⟨h1, h2, _⟩ := get_last_file_fold vols none lf h
  exact ⟨h1.resolve_right (fun hc => Option.noConfusion hc), h2⟩

lemma truthy_some {U : String} (hU : U ≠ "") : truthy (some U) = true := by
  simp [truthy, hU]

lemma get_url_of_truthy (config : Option ConfigFile) (vols : List Vol)
    (arch : String → ArchiveContent)
    (h : truthy (get_url_from_config config) = true) :
    get_url config vols arch =
      Except.ok ⟨get_url_from_config config, false, config, 0⟩ := by
  unfold get_url
  rw [if_neg]
  intro hc
  rw [h] at hc
  exact Bool.noConfusion hc.1

lemma config_wins (U : String) (hU : U ≠ "") (vols : List Vol)
    (arch : String → ArchiveContent) :
    get_url (some (ConfigFile.withUrl U)) vols arch =
      Except.ok ⟨some U, false, some (ConfigFile.withUrl U), 0⟩ :=
  get_url_of_truthy (some (ConfigFile.withUrl U)) vols arch (truthy_some hU)

lemma get_url_infer (config : Option ConfigFile) (vols : List Vol)
    (arch : String → ArchiveContent) (lf : Vol) (t U : String)
    (hcfg : truthy (get_url_from_config config) = false) (hvols : vols ≠ [])
    (hlf : get_last_file vols = some lf)
    (harch : arch lf.name = ArchiveContent.info t)
    (hfind : findSite t = some U) (hU : U ≠ "") :
    get_url config vols arch =
      Except.ok ⟨some U, true, some (ConfigFile.withUrl U), 1⟩ := by
  unfold get_url
  rw [if_pos ⟨hcfg, hvols⟩]
  unfold cbzStep
  rw [hlf]
  simp only [harch, get_url_from_cbz, hfind, if_neg hU]

lemma reads_pos_config_falsy (config : Option ConfigFile) (vols : List Vol)
    (arch : String → ArchiveContent) (r : ResolveOut)
    (h : get_url config vols arch = Except.ok r) (hr : r.archiveReads ≠ 0) :
    truthy (get_url_from_config config) = false := by
  by_cases hc : truthy (get_url_from_config config) = false ∧ vols ≠ []
  · exact hc.1
  · unfold get_url at h
    rw [if_neg hc] at h
    have := Except.ok.inj h
    rw [← this] at hr
    exact absurd rfl hr

/-! ### Claims about resolution (C1, C2, C10, C3) -/

/-- C1: for every title folder whose config record is `{url: U}` with a
truthy `U`, resolution returns `(U, origin = config)` (the `url_from_cbz`
flag stays `false`), the config file is untouched, and zero archive
containers are opened — regardless of the folder's volumes and of every
archive's contents; moreover inference (a positive `archiveReads` count)
happens only when the config yielded no truthy URL. -/
theorem c1_config_precedence (U : String) (vols : List Vol)
    (arch : String → ArchiveContent) (hU : U ≠ "") :
    get_url (some (ConfigFile.withUrl U)) vols arch =
        Except.ok ⟨some U, false, some (ConfigFile.withUrl U), 0⟩ ∧
      ∀ (config : Option ConfigFile) (vols' : List Vol)
        (arch' : String → ArchiveContent) (r : ResolveOut),
        get_url config vols' arch' = Except.ok r → r.archiveReads ≠ 0 →
          truthy (get_url_from_config config) = false :=
  ⟨config_wins U hU vols arch,
   fun config vols' arch' r h hr => reads_pos_config_falsy config vols' arch' r h hr⟩

/-- C1 witness: a concrete configured title whose only archive is a corrupt
zip; resolution still returns the configured URL and reads no archive. -/
theorem c1_config_precedence_witness :
    get_url (some (ConfigFile.withUrl "https://example.test/c1")) [⟨"v.cbz", 0⟩]
        (fun _ => ArchiveContent.badZip) =
      Except.ok ⟨some "https://example.test/c1", false,
        some (ConfigFile.withUrl "https://example.test/c1"), 0⟩ :=
  (c1_config_precedence "https://example.test/c1" [⟨"v.cbz", 0⟩]
    (fun _ => ArchiveContent.badZip) (by decide)).1

/-- C2: for a title with no config record and non-empty volumes whose
last-modified archive's metadata has first `Site:` line `U` (non-empty),
resolution returns `(U, origin = inferred)` after one archive read and
immediately persists the canonical record `{url: U}`; re-resolving any
folder holding that persisted record returns `(U, origin = config)` with
zero archive reads. -/
theorem c2_infer_persist_roundtrip (vols : List Vol)
    (arch : String → ArchiveContent) (lf : Vol) (t U : String)
    (hvols : vols ≠ []) (hlf : get_last_file vols = some lf)
    (harch : arch lf.name = ArchiveContent.info t)
    (hfind : findSite t = some U) (hU : U ≠ "") :
    get_url none vols arch =
        Except.ok ⟨some U, true, some (ConfigFile.withUrl U), 1⟩ ∧
      ∀ (vols' : List Vol) (arch' : String → ArchiveContent),
        get_url (some (ConfigFile.withUrl U)) vols' arch' =
          Except.ok ⟨some U, false, some (ConfigFile.withUrl U), 0⟩ :=
  ⟨get_url_infer none vols arch lf t U rfl hvols hlf harch hfind hU,
   fun vols' arch' => config_wins U hU vols' arch'⟩

/-- C2 witness: a concrete two-volume folder whose newest archive's
`info.txt` says `Site: https://example.test/foo`; inference returns it,
persists it, and the re-resolution reads it back from config. -/
theorem c2_infer_persist_roundtrip_witness :
    get_url none [⟨"v1.cbz", 3⟩, ⟨"v2.cbz", 7⟩]
        (fun n => if n = "v2.cbz"
          then ArchiveContent.info "Title: Foo\nSite: https://example.test/foo\nMore"
          else ArchiveContent.noInfo) =
      Except.ok ⟨some "https://example.test/foo", true,
        some (ConfigFile.withUrl "https://example.test/foo"), 1⟩ ∧
    get_url (some (ConfigFile.withUrl "https://example.test/foo"))
        [⟨"v1.cbz", 3⟩, ⟨"v2.cbz", 7⟩]
        (fun n => if n = "v2.cbz"
          then ArchiveContent.info "Title: Foo\nSite: https://example.test/foo\nMore"
          else ArchiveContent.noInfo) =
      Except.ok ⟨some "https://example.test/foo", false,
        some (ConfigFile.withUrl "https://example.test/foo"), 0⟩ :=
  ⟨(c2_infer_persist_roundtrip [⟨"v1.cbz", 3⟩, ⟨"v2.cbz", 7⟩]
      (fun n => if n = "v2.cbz"
        then ArchiveContent.info "Title: Foo\nSite: https://example.test/foo\nMore"
        else ArchiveContent.noInfo) ⟨"v2.cbz", 7⟩
      "Title: Foo\nSite: https://example.test/foo\nMore" "https://example.test/foo"
      (by decide) (by decide) (by decide) (by decide) (by decide)).1,
   (c2_infer_persist_roundtrip [⟨"v1.cbz", 3⟩, ⟨"v2.cbz", 7⟩]
      (fun n => if n = "v2.cbz"
        then ArchiveContent.info "Title: Foo\nSite: https://example.test/foo\nMore"
        else ArchiveContent.noInfo) ⟨"v2.cbz", 7⟩
      "Title: Foo\nSite: https://example.test/foo\nMore" "https://example.test/foo"
      (by decide) (by decide) (by decide) (by decide) (by decide)).2 _ _⟩

/-- C10: a config record that exists and parses but carries `url = ""` is
treated by resolution exactly like an absent config: with non-empty volumes
inference runs, and when it succeeds with a non-empty `U` the inferred URL
is returned and persisted, overwriting the existing record — the outcome is
literally equal to resolving with no config file at all. -/
theorem c10_empty_url_config (vols : List Vol) (arch : String → ArchiveContent)
    (lf : Vol) (t U : String) (hvols : vols ≠ [])
    (hlf : get_last_file vols = some lf)
    (harch : arch lf.name = ArchiveContent.info t)
    (hfind : findSite t = some U) (hU : U ≠ "") :
    get_url (some (ConfigFile.withUrl "")) vols arch =
        Except.ok ⟨some U, true, some (ConfigFile.withUrl U), 1⟩ ∧
      get_url (some (ConfigFile.withUrl "")) vols arch = get_url none vols arch := by
  have h1 := get_url_infer (some (ConfigFile.withUrl "")) vols arch lf t U (by decide)
    hvols hlf harch hfind hU
  have h2 := get_url_infer none vols arch lf t U rfl hvols hlf harch hfind hU
  exact ⟨h1, h1.trans h2.symm⟩

/-- C10 witness: a concrete folder with config `{url: ""}` and one archive
advertising `Site: https://example.test/x`; inference wins and overwrites. -/
theorem c10_empty_url_config_witness :
    get_url (some (ConfigFile.withUrl "")) [⟨"w.cbz", 2⟩]
        (fun _ => ArchiveContent.info "Site: https://example.test/x") =
      Except.ok ⟨some "https://example.test/x", true,
        some (ConfigFile.withUrl "https://example.test/x"), 1⟩ :=
  (c10_empty_url_config [⟨"w.cbz", 2⟩]
    (fun _ => ArchiveContent.info "Site: https://example.test/x") ⟨"w.cbz", 2⟩
    "Site: https://example.test/x" "https://example.test/x"
    (by decide) (by decide) (by decide) (by decide) (by decide)).1

/-- C3 counterexample: the archive inspector is *not* total against its
caller.  On an archive container that cannot be opened (`badZip`, e.g. a
`BadZipFile`), `_get_url_from_cbz` raises — only `KeyError` is caught — and
the exception propagates through `_get_url` into `Comic.__init__`: resolving
a configless title whose newest archive is corrupt blows up instead of
returning absent. -/
theorem c3_inspector_raises :
    get_url_from_cbz ArchiveContent.badZip = Except.error () ∧
      get_url none [⟨"v.cbz", 0⟩] (fun _ => ArchiveContent.badZip) =
        Except.error () ∧
      mk_comic ⟨"t", 0, FolderKind.dir [⟨"v.cbz", 0⟩], none,
          fun _ => ArchiveContent.badZip⟩ =
        Except.error () := by decide

/-- C3 (amended): if the fixed-name `info.txt` entry is absent the
inspector returns absent after printing a diagnostic; if the entry exists
but no line matches `Site: ` it returns absent silently (no diagnostic);
but if the archive cannot be opened the exception is *not* caught and
propagates to the caller. -/
theorem c3_inspector_amended (t : String) (h : findSite t = none) :
    get_url_from_cbz (ArchiveContent.info t) = Except.ok ⟨none, false⟩ ∧
      get_url_from_cbz ArchiveContent.noInfo = Except.ok ⟨none, true⟩ ∧
      get_url_from_cbz ArchiveContent.badZip = Except.error () := by
  refine ⟨?_, rfl, rfl⟩
  simp [get_url_from_cbz, h]

/-- C3 witness: concrete metadata text with no `Site:` line. -/
theorem c3_inspector_amended_witness :
    get_url_from_cbz (ArchiveContent.info "Title: Foo\nPages: 20") =
        Except.ok ⟨none, false⟩ ∧
      get_url_from_cbz ArchiveContent.noInfo = Except.ok ⟨none, true⟩ ∧
      get_url_from_cbz ArchiveContent.badZip = Except.error () :=
  c3_inspector_amended "Title: Foo\nPages: 20" (by decide)

/-- C4 (code bug): with the shipped empty `SKIPPED` list the skip check on
an absent URL is indeed vacuously false and the fetcher is never invoked;
but an unresolved title whose folder *does* contain archives is not a
terminal reported state: `_download_comic` echoes "No url available" and
then raises `TypeError` at `'mangadex' in self.url`, aborting the whole
`Library.update` iteration (here the second, perfectly healthy title is
never processed). -/
theorem c4_unresolved_crash :
    needs_skip none SKIPPED = Except.ok false ∧
      download_comic none false = Except.error () ∧
      library_update SKIPPED
          [(⟨"t1", [⟨"x.cbz", 0⟩], some ⟨"x.cbz", 0⟩, none, false, none, ∅⟩,
            ⟨false, FolderKind.dir [⟨"x.cbz", 0⟩]⟩),
           (⟨"t2", [], none, none, false, none, ∅⟩,
            ⟨false, FolderKind.missing⟩)] =
        Except.error () := by decide

/-! ### Library-loop lemmas -/

lemma needs_skip_ok_of_some (u : String) (skipped : List String) :
    ∃ b, needs_skip (some u) skipped = Except.ok b := by
  cases skipped with
  | nil => exact ⟨false, rfl⟩
  | cons w ws => exact ⟨_, rfl⟩

lemma comic_update_ok_of_url (c : Comic) (e : RunEnv) (u : String)
    (hu : c.url = some u) : ∃ y, comic_update c e = Except.ok y := by
  unfold comic_update
  by_cases h : c.initial_volumes = []
  · rw [if_pos h]; exact ⟨_, rfl⟩
  · rw [if_neg h, hu]
    exact ⟨_, rfl⟩

lemma step_ok_of_processable (skipped : List String) (x : Comic × RunEnv)
    (h : processable skipped x) : ∃ y, step skipped x = Except.ok y := by
  obtain ⟨c, e⟩ := x
  replace h : c.url.isSome = true ∨ (skipped = [] ∧ c.initial_volumes = []) := h
  rcases h with h | ⟨hsk, hvols⟩
  · obtain ⟨u, hu⟩ := Option.isSome_iff_exists.mp h
    obtain ⟨b, hb⟩ := needs_skip_ok_of_some u skipped
    simp only [step]
    rw [hu, hb]
    cases b with
    | true => exact ⟨_, rfl⟩
    | false =>
      obtain ⟨⟨c', dl⟩, hy⟩ := comic_update_ok_of_url c e u hu
      rw [hy]
      exact ⟨_, rfl⟩
  · subst hsk
    simp only [step, needs_skip, comic_update]
    rw [if_pos hvols]
    exact ⟨_, rfl⟩

lemma aggOf_nil (skipped : List String) : aggOf skipped [] = ∅ := rfl

lemma aggOf_cons (skipped : List String) (x : Comic × RunEnv)
    (l : List (Comic × RunEnv)) :
    aggOf skipped (x :: l) = stepD skipped x ∪ aggOf skipped l := rfl

lemma library_update_eq_aggOf (skipped : List String) (l : List (Comic × RunEnv))
    (h : ∀ x ∈ l, ∃ y, step skipped x = Except.ok y) :
    ∃ ns, library_update skipped l = Except.ok (aggOf skipped l, ns) := by
  induction l with
  | nil => exact ⟨[], rfl⟩
  | cons x rest ih =>
    obtain ⟨⟨d, dl⟩, hx⟩ := h x (List.mem_cons_self x rest)
    obtain ⟨ns, hns⟩ := ih fun z hz => h z (List.mem_cons_of_mem x hz)
    refine ⟨if dl.invoked then x.1.name :: ns else ns, ?_⟩
    unfold library_update
    rw [hx, hns, aggOf_cons]
    have hd : stepD skipped x = d := by unfold stepD; rw [hx]
    rw [hd]

lemma aggOf_append (skipped : List String) (l₁ l₂ : List (Comic × RunEnv)) :
    aggOf skipped (l₁ ++ l₂) = aggOf skipped l₁ ∪ aggOf skipped l₂ := by
  induction l₁ with
  | nil => simp [aggOf]
  | cons x t ih =>
    rw [List.cons_append, aggOf_cons, aggOf_cons, ih, Finset.union_assoc]

lemma aggOf_perm (skipped : List String) {l l' : List (Comic × RunEnv)}
    (h : l.Perm l') : aggOf skipped l = aggOf skipped l' := by
  induction h with
  | nil => rfl
  | cons x _ ih => rw [aggOf_cons, aggOf_cons, ih]
  | swap x y l =>
    rw [aggOf_cons, aggOf_cons, aggOf_cons, aggOf_cons]
    exact Finset.union_left_comm _ _ _
  | trans _ _ ih₁ ih₂ => rw [ih₁, ih₂]

lemma aggOf_take_mono (skipped : List String) (l : List (Comic × RunEnv))
    {j k : Nat} (h : j ≤ k) :
    aggOf skipped (l.take j) ⊆ aggOf skipped (l.take k) := by
  have hsplit : l.take k = l.take j ++ (l.drop j).take (k - j) := by
    rw [← List.take_add, Nat.add_sub_cancel' h]
  rw [hsplit, aggOf_append]
  exact Finset.subset_union_left

lemma step_of_fetch (skipped : List String) (c : Comic) (e : RunEnv) (u : String)
    (hu : c.url = some u) (hns : needs_skip (some u) skipped = Except.ok false)
    (hv : c.initial_volumes ≠ []) :
    step skipped (c, e) =
      Except.ok
        ((get_actual_comic_volumes e.postKind).toFinset \
            c.initial_volumes.toFinset,
          ⟨true, e.fetchRaises, containsSub mangadexChars u.data⟩) := by
  simp only [step]
  rw [hu, hns]
  unfold comic_update
  rw [if_neg hv, hu]
  rfl

/-! ### Claims about the update loop (C8, C5, C9) -/

/-- C8: for every title whose update actually runs a fetch (resolved URL,
non-empty `initial_volumes`), `downloaded_volumes` is set to the fresh
post-fetch rescan of the folder minus the `pre_volumes` captured at
construction, and the fetcher is invoked exactly once on the way. -/
theorem c8_fresh_diff (c : Comic) (e : RunEnv) (u : String)
    (hu : c.url = some u) (hv : c.initial_volumes ≠ []) :
    comic_update c e =
      Except.ok
        ({ c with
            downloaded_volumes :=
              (get_actual_comic_volumes e.postKind).toFinset \
                c.initial_volumes.toFinset },
          ⟨true, e.fetchRaises, containsSub mangadexChars u.data⟩) := by
  unfold comic_update
  rw [if_neg hv, hu]
  rfl

/-- C8 witness: the spec's concrete instance — folder previously `{x}`, the
fetcher leaves `{x, a, b}`, so `new_volumes = {a, b}`. -/
theorem c8_fresh_diff_witness :
    comic_update
        ⟨"t", [⟨"x.cbz", 0⟩], some ⟨"x.cbz", 0⟩, some "https://s.example/t",
          false, some (ConfigFile.withUrl "https://s.example/t"), ∅⟩
        ⟨false, FolderKind.dir [⟨"x.cbz", 0⟩, ⟨"a.cbz", 1⟩, ⟨"b.cbz", 2⟩]⟩ =
      Except.ok
        (⟨"t", [⟨"x.cbz", 0⟩], some ⟨"x.cbz", 0⟩, some "https://s.example/t",
            false, some (ConfigFile.withUrl "https://s.example/t"),
            (get_actual_comic_volumes
                (FolderKind.dir [⟨"x.cbz", 0⟩, ⟨"a.cbz", 1⟩, ⟨"b.cbz", 2⟩])).toFinset \
              ([⟨"x.cbz", 0⟩] : List Vol).toFinset⟩,
          ⟨true, false, containsSub mangadexChars "https://s.example/t".data⟩) ∧
      (get_actual_comic_volumes
          (FolderKind.dir [⟨"x.cbz", 0⟩, ⟨"a.cbz", 1⟩, ⟨"b.cbz", 2⟩])).toFinset \
          ([⟨"x.cbz", 0⟩] : List Vol).toFinset =
        ({⟨"a.cbz", 1⟩, ⟨"b.cbz", 2⟩} : Finset Vol) :=
  ⟨c8_fresh_diff _ _ "https://s.example/t" rfl (by decide), by decide⟩

/-- C5: fault isolation.  In a run `l₁ ++ (c, e) :: l₂` where every title
either resolved a URL or (with the shipped empty skip list) has an empty
folder, and the fetcher invocation for `c` raises, the fault is caught and
the red diagnostic printed (`faultReported = true`), `c`'s folder is still
rescanned and its diff contributed, and every title of `l₂` is still
processed and contributes to the aggregate — `library_update` returns
normally over the whole sequence. -/
theorem c5_fault_isolation (skipped : List String) (l₁ l₂ : List (Comic × RunEnv))
    (c : Comic) (e : RunEnv) (u : String)
    (h₁ : ∀ x ∈ l₁, processable skipped x) (h₂ : ∀ x ∈ l₂, processable skipped x)
    (hu : c.url = some u)
    (hns : needs_skip (some u) skipped = Except.ok false)
    (hv : c.initial_volumes ≠ []) (hraise : e.fetchRaises = true) :
    (∃ ns, library_update skipped (l₁ ++ (c, e) :: l₂) =
        Except.ok
          (aggOf skipped l₁ ∪
            (((get_actual_comic_volumes e.postKind).toFinset \
                c.initial_volumes.toFinset) ∪ aggOf skipped l₂),
            ns)) ∧
      step skipped (c, e) =
        Except.ok
          ((get_actual_comic_volumes e.postKind).toFinset \
              c.initial_volumes.toFinset,
            ⟨true, true, containsSub mangadexChars u.data⟩) := by
  have hstep := step_of_fetch skipped c e u hu hns hv
  rw [hraise] at hstep
  have hall : ∀ x ∈ l₁ ++ (c, e) :: l₂, ∃ y, step skipped x = Except.ok y := by
    intro x hx
    rcases List.mem_append.mp hx with hx | hx
    · exact step_ok_of_processable skipped x (h₁ x hx)
    · rcases List.mem_cons.mp hx with rfl | hx
      · exact ⟨_, hstep⟩
      · exact step_ok_of_processable skipped x (h₂ x hx)
  obtain ⟨ns, hns'⟩ := library_update_eq_aggOf skipped _ hall
  refine ⟨⟨ns, ?_⟩, hstep⟩
  rw [hns', aggOf_append, aggOf_cons]
  have hd : stepD skipped (c, e) =
      (get_actual_comic_volumes e.postKind).toFinset \
        c.initial_volumes.toFinset := by
    unfold stepD; rw [hstep]
  rw [hd]

/-- First concrete witness title for fault isolation: healthy fetch. -/
def c5t1 : Comic × RunEnv :=
  (⟨"t1", [⟨"p.cbz", 0⟩], some ⟨"p.cbz", 0⟩, some "https://a.example/1",
      false, none, ∅⟩,
    ⟨false, FolderKind.dir [⟨"p.cbz", 0⟩, ⟨"q.cbz", 1⟩]⟩)

/-- Middle concrete witness title: its fetcher invocation raises. -/
def c5t2 : Comic × RunEnv :=
  (⟨"t2", [⟨"r.cbz", 0⟩], some ⟨"r.cbz", 0⟩, some "https://a.example/2",
      false, none, ∅⟩,
    ⟨true, FolderKind.dir [⟨"r.cbz", 0⟩, ⟨"s.cbz", 2⟩]⟩)

/-- Last concrete witness title: healthy fetch after the fault. -/
def c5t3 : Comic × RunEnv :=
  (⟨"t3", [⟨"w.cbz", 0⟩], some ⟨"w.cbz", 0⟩, some "https://a.example/3",
      false, none, ∅⟩,
    ⟨false, FolderKind.dir [⟨"w.cbz", 0⟩, ⟨"z.cbz", 3⟩]⟩)

/-- C5 witness: three concrete titles; the middle one's fetch raises, the
library still completes, the middle title's own diff is credited and the
last title still contributes. -/
theorem c5_fault_isolation_witness :
    (∃ ns, library_update SKIPPED [c5t1, c5t2, c5t3] =
        Except.ok
          (aggOf SKIPPED [c5t1] ∪
            (((get_actual_comic_volumes c5t2.2.postKind).toFinset \
                c5t2.1.initial_volumes.toFinset) ∪ aggOf SKIPPED [c5t3]),
            ns)) ∧
      step SKIPPED c5t2 =
        Except.ok
          ((get_actual_comic_volumes c5t2.2.postKind).toFinset \
              c5t2.1.initial_volumes.toFinset,
            ⟨true, true, containsSub mangadexChars "https://a.example/2".data⟩) :=
  c5_fault_isolation SKIPPED [c5t1] [c5t3] c5t2.1 c5t2.2 "https://a.example/2"
    (by decide) (by decide) rfl rfl (by decide) rfl

/-- C9: aggregation.  When every title's loop iteration can complete
(`processable`), `Library.update` returns the union of the per-title
contributions (`aggOf`, in which a skipped title contributes `∅` and a
never-updated empty folder contributes its untouched empty
`downloaded_volumes`); the running aggregate over successive prefixes is
monotone non-decreasing; and the final aggregate is invariant under
permuting the processing order. -/
theorem c9_aggregate (skipped : List String) (l l' : List (Comic × RunEnv))
    (hperm : l.Perm l') (hok : ∀ x ∈ l, processable skipped x) :
    (∃ ns, library_update skipped l = Except.ok (aggOf skipped l, ns)) ∧
      aggOf skipped l = aggOf skipped l' ∧
      ∀ j k : Nat, j ≤ k →
        aggOf skipped (l.take j) ⊆ aggOf skipped (l.take k) :=
  ⟨library_update_eq_aggOf skipped l fun x hx =>
      step_ok_of_processable skipped x (hok x hx),
   aggOf_perm skipped hperm,
   fun _ _ h => aggOf_take_mono skipped l h⟩

/-- Concrete library content for the aggregation witness. -/
def c9l : List (Comic × RunEnv) :=
  [(⟨"t1", [⟨"p.cbz", 0⟩], some ⟨"p.cbz", 0⟩, some "https://a.example/1",
      false, none, ∅⟩,
    ⟨false, FolderKind.dir [⟨"p.cbz", 0⟩, ⟨"q.cbz", 1⟩]⟩),
   (⟨"t2", [], none, none, false, none, ∅⟩, ⟨false, FolderKind.missing⟩)]

/-- The same two titles in the opposite processing order. -/
def c9lrev : List (Comic × RunEnv) :=
  [(⟨"t2", [], none, none, false, none, ∅⟩, ⟨false, FolderKind.missing⟩),
   (⟨"t1", [⟨"p.cbz", 0⟩], some ⟨"p.cbz", 0⟩, some "https://a.example/1",
      false, none, ∅⟩,
    ⟨false, FolderKind.dir [⟨"p.cbz", 0⟩, ⟨"q.cbz", 1⟩]⟩)]

/-- C9 witness: two concrete titles processed in both orders; the library
run succeeds with the `aggOf` union and the aggregate is order-invariant. -/
theorem c9_aggregate_witness :
    (∃ ns, library_update SKIPPED c9l = Except.ok (aggOf SKIPPED c9l, ns)) ∧
      aggOf SKIPPED c9l = aggOf SKIPPED c9lrev :=
  ⟨(c9_aggregate SKIPPED c9l c9lrev (by decide) (by decide)).1,
   (c9_aggregate SKIPPED c9l c9lrev (by decide) (by decide)).2.1⟩

/-! ### Claims about discovery (C6, C7) -/

/-- A base-directory child named `a`, mtime 5 (content irrelevant). -/
def c6a : Child := ⟨"a", 5, FolderKind.missing, none, fun _ => ArchiveContent.noInfo⟩

/-- A base-directory child named `b`, same mtime 5. -/
def c6b : Child := ⟨"b", 5, FolderKind.missing, none, fun _ => ArchiveContent.noInfo⟩

/-- C6 counterexample: two children with *equal* mtimes.  The code's
ordering (`sortDesc`, Python's stable `sorted(..., reverse=True)` keyed on
mtime only) keeps whatever order the filesystem enumeration produced —
`["b", "a"]` when the listing came back `[b, a]`, `["a", "b"]` when it came
back `[a, b]` — whereas the claimed ordering (`specSort`: mtime descending,
ties by name ascending) deterministically yields `["a", "b"]`.  Ties are
therefore *not* broken by folder name and the order is not a function of
the folder contents alone. -/
theorem c6_tie_not_by_name :
    (sortDesc [c6b, c6a]).map Child.name = ["b", "a"] ∧
      (specSort [c6b, c6a]).map Child.name = ["a", "b"] ∧
      (sortDesc [c6b, c6a]).map Child.name ≠ (specSort [c6b, c6a]).map Child.name ∧
      (sortDesc [c6a, c6b]).map Child.name = ["a", "b"] ∧
      c6a.mtime = c6b.mtime := by decide

/-- C6 (amended): discovery does sort by modification timestamp with the
most recently touched first (the output is a permutation of the listing,
pairwise mtime-descending), but ties keep the filesystem enumeration
order — in particular on an all-ties listing the enumeration order is
returned unchanged — rather than being reordered by folder name. -/
theorem c6_mtime_order :
    (∀ l : List Child,
        (sortDesc l).Perm l ∧
          (sortDesc l).Pairwise fun a b => b.mtime ≤ a.mtime) ∧
      ∀ (l : List Child) (t : Nat), (∀ x ∈ l, x.mtime = t) → sortDesc l = l := by
  constructor
  · intro l
    refine ⟨List.perm_insertionSort _ l, ?_⟩
    haveI : IsTotal Child fun a b => b.mtime ≤ a.mtime :=
      ⟨fun a b => (Nat.le_total a.mtime b.mtime).symm⟩
    haveI : IsTrans Child fun a b => b.mtime ≤ a.mtime :=
      ⟨fun _ _ _ hab hbc => le_trans hbc hab⟩
    exact List.sorted_insertionSort _ l
  · intro l t hall
    induction l with
    | nil => rfl
    | cons x xs ih =>
      have ih2 : List.insertionSort (fun a b : Child => b.mtime ≤ a.mtime) xs = xs :=
        ih fun z hz => hall z (List.mem_cons_of_mem _ hz)
      have hx := hall x (List.mem_cons_self _ _)
      show List.orderedInsert _ x (List.insertionSort _ xs) = x :: xs
      rw [ih2]
      cases xs with
      | nil => rfl
      | cons y ys =>
        have hy := hall y (by simp)
        simp only [List.orderedInsert]
        rw [if_pos (le_of_eq (hy.trans hx.symm))]

/-- C6 witness: the amended ordering facts evaluated on the concrete
equal-mtime listing. -/
theorem c6_mtime_order_witness :
    (sortDesc [c6b, c6a]).Perm [c6b, c6a] ∧ sortDesc [c6b, c6a] = [c6b, c6a] :=
  ⟨(c6_mtime_order.1 [c6b, c6a]).1, c6_mtime_order.2 [c6b, c6a] 5 (by decide)⟩

/-- A child of the base directory that is a symbolic link resolving to a
directory containing one archive, with a configured URL. -/
def c7child : Child :=
  ⟨"slink", 0, FolderKind.symlinkToDir [⟨"v.cbz", 1⟩],
    some (ConfigFile.withUrl "https://src.example/slink"),
    fun _ => ArchiveContent.noInfo⟩

/-- The `Comic` the library builds for that symlinked child. -/
def c7comic : Comic :=
  ⟨"slink", [⟨"v.cbz", 1⟩], some ⟨"v.cbz", 1⟩, some "https://src.example/slink",
    false, some (ConfigFile.withUrl "https://src.example/slink"), ∅⟩

/-- C7 counterexample: a symlink child is *not* excluded from discovery.
`Library.__init__` constructs a `Comic` for every child of the base
directory, and because `Path.is_dir()` follows links, a symlink that
resolves to a directory is scanned like a plain folder and — as the
invoked-names list shows — the fetcher is invoked for it. -/
theorem c7_symlink_managed :
    library_init [c7child] = Except.ok [c7comic] ∧
      library_update SKIPPED
          [(c7comic, ⟨false, FolderKind.dir [⟨"v.cbz", 1⟩]⟩)] =
        Except.ok (∅, ["slink"]) := by decide

/-- C7 (amended): symlink children are still constructed as titles and kept
in the discovery sequence.  Only a symlink that does *not* resolve to a
directory gets the red `Symlink:` diagnostic and an empty volume list, so
its update short-circuits before any fetch; a symlink resolving to a
directory is scanned exactly like a real directory (and can be fetched, as
the counterexample shows). -/
theorem c7_symlink_constructed (name : String) (mt : Nat)
    (config : Option ConfigFile) (arch : String → ArchiveContent) (vs : List Vol) :
    get_actual_comic_volumes FolderKind.symlinkOther = [] ∧
      symlinkDiag FolderKind.symlinkOther = true ∧
      symlinkDiag (FolderKind.symlinkToDir vs) = false ∧
      get_actual_comic_volumes (FolderKind.symlinkToDir vs) =
        get_actual_comic_volumes (FolderKind.dir vs) ∧
      ∃ c : Comic,
        mk_comic ⟨name, mt, FolderKind.symlinkOther, config, arch⟩ = Except.ok c ∧
          c.initial_volumes = [] ∧
          ∀ e : RunEnv, comic_update c e = Except.ok (c, ⟨false, false, false⟩) := by
  refine ⟨rfl, rfl, rfl, rfl,
    ⟨⟨name, [], none, get_url_from_config config, false, config, ∅⟩, ?_, rfl,
      fun e => rfl⟩⟩
  have hg : get_url config [] arch =
      Except.ok ⟨get_url_from_config config, false, config, 0⟩ := by
    unfold get_url
    rw [if_neg]
    exact fun h => h.2 rfl
  simp only [mk_comic, get_actual_comic_volumes]
  rw [hg]
  rfl

/-- C7 witness: the amended statement evaluated on a concrete
non-directory symlink child (whose archives are never even readable). -/
theorem c7_symlink_constructed_witness :
    get_actual_comic_volumes FolderKind.symlinkOther = [] ∧
      ∃ c : Comic,
        mk_comic ⟨"s2", 3, FolderKind.symlinkOther, none,
            fun _ => ArchiveContent.badZip⟩ = Except.ok c ∧
          c.initial_volumes = [] ∧
          ∀ e : RunEnv, comic_update c e = Except.ok (c, ⟨false, false, false⟩) :=
  ⟨(c7_symlink_constructed "s2" 3 none (fun _ => ArchiveContent.badZip) []).1,
   (c7_symlink_constructed "s2" 3 none (fun _ => ArchiveContent.badZip) []).2.2.2.2⟩

end MangaPyUpdate
